import Mathlib

/-!
# The file-system environment provider of `cmd/lumi/provider_env.go`

A shallow embedding of `fileSystemEnvironmentProvider` (`GetEnvironment`,
`SaveEnvironment`, `RemoveEnvironment`) and of `backupTarget`.

The provider is written against other packages of the repository
(`workspace`, `encoding`, `environment`, `mapper`, `contract`) and against the Go
standard library (`os`, `ioutil`, `filepath`, `fmt`).  The packages are parameters of
the embedding (`Collaborators`), the standard library is modelled by a small file
system (`FileSystem`) together with the failures the host may inject (`Host`).
Every function returns, next to its Go result, the file system it leaves behind and
the list of outside calls it made, in order.  Logging (`glog`) has no effect on
results and is left out.
-/

set_option autoImplicit false

namespace ProviderEnv

/-! ## Values of the Go program -/

/-- The contents of a file, a Go `[]byte`; each element stands for one byte. -/
abbrev Bytes := List Nat

/-- A Go `error` value.  `errorf` is what `fmt.Errorf` builds, `pathError` is the
error of a failed `os`/`ioutil` call (`notExist` tells whether `os.IsNotExist`
holds for it), `foreign` is an error produced by a codec or by the mapper. -/
inductive Error where
  | errorf (msg : String)
  | pathError (op : String) (path : String) (notExist : Bool)
  | foreign (msg : String)
  deriving DecidableEq

/-- Go `os.IsNotExist`. -/
def os.IsNotExist : Error → Bool
  | .pathError _ _ ne => ne
  | _ => false

/-- A run-time panic: a call that does not return to its caller. -/
inductive Panic where
  | failfast (msg : String)
  | nilDereference
  deriving DecidableEq

/-- A dynamically typed value as produced by unmarshaling into `interface{}`:
`null` is the nil interface, `object` is a `map[string]interface{}`, `array` a
`[]interface{}`, and `scalar` any other dynamic type (booleans, numbers, strings). -/
inductive Value where
  | null
  | scalar (text : String)
  | array (items : List Value)
  | object (fields : List (String × Value))

/-- A Go `map[string]interface{}` as a list of bindings; the first binding of a key is
the one the map holds. -/
abbrev Obj := List (String × Value)

/-- The binding of key `k`, when there is one. -/
def mapLookup : Obj → String → Option Value
  | [], _ => none
  | (k', v) :: rest, k => if k' = k then some v else mapLookup rest k

/-- Go `m[k]`: the value bound to `k`, and the nil interface when `k` is not bound. -/
def mapIndex (m : Obj) (k : String) : Value :=
  (mapLookup m k).getD Value.null

/-- Go `delete(m, k)`. -/
def mapDelete : Obj → String → Obj
  | [], _ => []
  | (k', v) :: rest, k => if k' = k then mapDelete rest k else (k', v) :: mapDelete rest k

/-- Go `m[k] = v`. -/
def mapStore : Obj → String → Value → Obj
  | [], k, v => [(k, v)]
  | (k', v') :: rest, k, v => if k' = k then (k, v) :: rest else (k', v') :: mapStore rest k v

/-- Go `v != nil` for an interface value. -/
def Value.notNil : Value → Bool
  | .null => false
  | _ => true

/-! ## The standard library -/

/-- The regular files of the file system, by path.  Directories are not tracked:
`os.MkdirAll` is observed only through its success or failure. -/
structure FileSystem where
  files : String → Option Bytes

/-- What the model leaves open about the host: `filepath.Dir`, and the failures (lack of
permission, full disk, ...) the operating system may report for a call that could
otherwise succeed.  A `true` makes that call fail.  `openFails` is about opening, for
reading, a path that holds no regular file: when it is `true` the path cannot be resolved
(a parent is not a directory or cannot be searched, the path is a directory) and the error
is not one for which `os.IsNotExist` holds. -/
structure Host where
  Dir : String → String
  openFails : String → Bool
  readFails : String → Bool
  renameFails : String → String → Bool
  mkdirFails : String → Bool
  writeFails : String → Bool

/-- Auxiliary scan of `filepath.Ext`: the path is read from its last character towards
the first, `acc` holds the characters already passed. -/
def filepath.extScan : List Char → List Char → List Char
  | [], _ => []
  | ch :: rest, acc =>
    if ch = '/' then []
    else if ch = '.' then '.' :: acc
    else filepath.extScan rest (ch :: acc)

/-- Go `filepath.Ext` (Unix separator): the suffix beginning at the final dot in the final
element of the path, empty when there is no dot. -/
def filepath.Ext (path : String) : String :=
  String.mk (filepath.extScan path.data.reverse [])

/-- Go `ioutil.ReadFile`.  Where no regular file is, the open fails: with an error for which
`os.IsNotExist` holds when the host reports the path as absent, with another error when
the host cannot resolve the path.  Where a file is, the host may still refuse the read. -/
def ioutil.ReadFile (host : Host) (fs : FileSystem) (file : String) : Except Error Bytes :=
  match fs.files file with
  | none => .error (.pathError "open" file (!host.openFails file))
  | some b => if host.readFails file then .error (.pathError "read" file false) else .ok b

/-- Go `os.Rename`: moves the file at `oldpath` to `newpath`, replacing what was there.
It fails, changing nothing, when `oldpath` does not exist or the host refuses. -/
def os.Rename (host : Host) (fs : FileSystem) (oldpath newpath : String) :
    Option Error × FileSystem :=
  match fs.files oldpath with
  | none => (some (.pathError "rename" oldpath true), fs)
  | some b =>
    if host.renameFails oldpath newpath then (some (.pathError "rename" oldpath false), fs)
    else (none, ⟨fun p => if p = newpath then some b else if p = oldpath then none
                          else fs.files p⟩)

/-- Go `os.MkdirAll(dir, 0700)`. -/
def os.MkdirAll (host : Host) (fs : FileSystem) (dir : String) : Option Error × FileSystem :=
  if host.mkdirFails dir then (some (.pathError "mkdir" dir false), fs) else (none, fs)

/-- Go `ioutil.WriteFile(file, data, 0600)`: creates or truncates the file and writes the
data.  A refused write is taken to fail on opening the file, before any byte is written. -/
def ioutil.WriteFile (host : Host) (fs : FileSystem) (file : String) (data : Bytes) :
    Option Error × FileSystem :=
  if host.writeFails file then (some (.pathError "open" file false), fs)
  else (none, ⟨fun p => if p = file then some data else fs.files p⟩)

/-! ## The packages the provider is written against -/

/-- An `encoding.Marshaler`.  `Unmarshal` is used at two target types, the typed
checkpoint and the generic `map[string]interface{}`; each use is a field. -/
structure Marshaler (Checkpoint : Type) where
  Marshal : Checkpoint → Except Error Bytes
  UnmarshalCheckpoint : Bytes → Except Error Checkpoint
  UnmarshalObject : Bytes → Except Error Obj

/-- The functions of other packages that the provider calls.
* `Name` is the field `Name` of a `deploy.Target`;
* `EnvPath` is `workspace.EnvPath`, `Detect` is `encoding.Detect`;
* `SerializeCheckpoint`, `DeserializeCheckpoint` are those of package `environment`;
* `Decode` is `mapper.New(nil).Decode(obj, &ignore)`, kept for its error only;
* `requireFailed`, `assertFailed` say what a violated `contract.Require` (for the named
  parameter) and a violated `contract.Assert` do.  Both are called as statements, so
  neither can hand an `error` to the caller: the call either never returns (`some p`) or
  returns and lets the caller go on (`none`). -/
structure Collaborators (Target Snapshot Checkpoint : Type) where
  Name : Target → String
  EnvPath : String → String
  Detect : String → Option (Marshaler Checkpoint) × String
  SerializeCheckpoint : Target → Option Snapshot → Checkpoint
  DeserializeCheckpoint : Checkpoint → Option Target × Option Snapshot
  Decode : Obj → Option Error
  requireFailed : String → Option Panic
  assertFailed : Option Panic

/-- An outside call made by the provider. -/
inductive Call where
  | EnvPath (name : String)
  | Detect (file : String)
  | ReadFile (file : String)
  | UnmarshalCheckpoint (data : Bytes)
  | UnmarshalObject (data : Bytes)
  | Decode (obj : Obj)
  | DeserializeCheckpoint
  | SerializeCheckpoint
  | Marshal
  | Rename (oldpath newpath : String)
  | MkdirAll (dir : String)
  | WriteFile (file : String) (data : Bytes)

/-- How a Go call ends: it returns a value or it panics. -/
inductive Completion (α : Type) where
  | returned (value : α)
  | panicked (p : Panic)

/-- A finished call: how it ended, the file system it left and the outside calls it made. -/
structure Outcome (α : Type) where
  completion : Completion α
  fs : FileSystem
  calls : List Call

/-- The four results of `GetEnvironment`; `none` is Go's `nil`. -/
structure GetResult (Target Snapshot Checkpoint : Type) where
  target : Option Target
  snapshot : Option Snapshot
  checkpoint : Option Checkpoint
  err : Option Error

section Provider

variable {Target Snapshot Checkpoint : Type}

/-- Go `contract.Require(cond, param)`: nothing happens when the condition holds. -/
def contract.Require (c : Collaborators Target Snapshot Checkpoint) (cond : Bool)
    (param : String) : Option Panic :=
  if cond then none else c.requireFailed param

/-- Go `contract.Assert(cond)`: nothing happens when the condition holds. -/
def contract.Assert (c : Collaborators Target Snapshot Checkpoint) (cond : Bool) :
    Option Panic :=
  if cond then none else c.assertFailed

/-- The error of `GetEnvironment` for a path without a codec. -/
def deserializationError (ext : String) : Error :=
  .errorf ("resource deserialization failed; illegal markup extension: \x27" ++ ext ++ "\x27")

/-- The error of `SaveEnvironment` for a path without a codec. -/
def serializationError (ext : String) : Error :=
  .errorf ("resource serialization failed; illegal markup extension: \x27" ++ ext ++ "\x27")

/-- Lines 62 to 66 of `GetEnvironment`: when `obj["latest"]` is not nil and is a
`map[string]interface{}`, its key `"resources"` is deleted.  In Go the inner map is changed
in place; here the changed map is stored back under `"latest"`. -/
def stripResources (obj : Obj) : Obj :=
  if (mapIndex obj "latest").notNil then
    match mapIndex obj "latest" with
    | .object latest => mapStore obj "latest" (.object (mapDelete latest "resources"))
    | _ => obj
  else obj

/-- The result tuple `nil, nil, nil, err`. -/
def GetResult.failure (err : Error) : GetResult Target Snapshot Checkpoint :=
  ⟨none, none, none, some err⟩

/-- Method `GetEnvironment` of `fileSystemEnvironmentProvider`. -/
def GetEnvironment (c : Collaborators Target Snapshot Checkpoint) (host : Host)
    (name : String) (fs : FileSystem) : Outcome (GetResult Target Snapshot Checkpoint) :=
  match contract.Require c (name != "") "name" with
  | some p => ⟨.panicked p, fs, []⟩
  | none =>
    let file := c.EnvPath name
    match c.Detect file with
    | (none, ext) =>
      ⟨.returned (.failure (deserializationError ext)), fs, [.EnvPath name, .Detect file]⟩
    | (some m, _) =>
      match ioutil.ReadFile host fs file with
      | .error err =>
        ⟨.returned (.failure err), fs, [.EnvPath name, .Detect file, .ReadFile file]⟩
      | .ok b =>
        match m.UnmarshalCheckpoint b with
        | .error err =>
          ⟨.returned (.failure err), fs,
            [.EnvPath name, .Detect file, .ReadFile file, .UnmarshalCheckpoint b]⟩
        | .ok checkpoint =>
          match m.UnmarshalObject b with
          | .error err =>
            ⟨.returned (.failure err), fs,
              [.EnvPath name, .Detect file, .ReadFile file, .UnmarshalCheckpoint b,
                .UnmarshalObject b]⟩
          | .ok obj =>
            let obj := stripResources obj
            match c.Decode obj with
            | some err =>
              ⟨.returned (.failure err), fs,
                [.EnvPath name, .Detect file, .ReadFile file, .UnmarshalCheckpoint b,
                  .UnmarshalObject b, .Decode obj]⟩
            | none =>
              let ts := c.DeserializeCheckpoint checkpoint
              match contract.Assert c ts.1.isSome with
              | some p =>
                ⟨.panicked p, fs,
                  [.EnvPath name, .Detect file, .ReadFile file, .UnmarshalCheckpoint b,
                    .UnmarshalObject b, .Decode obj, .DeserializeCheckpoint]⟩
              | none =>
                ⟨.returned ⟨ts.1, ts.2, some checkpoint, none⟩, fs,
                  [.EnvPath name, .Detect file, .ReadFile file, .UnmarshalCheckpoint b,
                    .UnmarshalObject b, .Decode obj, .DeserializeCheckpoint]⟩

/-- Function `backupTarget`: renames the file to `file + ".bak"` and ignores the error. -/
def backupTarget (c : Collaborators Target Snapshot Checkpoint) (host : Host)
    (file : String) (fs : FileSystem) : Outcome Unit :=
  match contract.Require c (file != "") "file" with
  | some p => ⟨.panicked p, fs, []⟩
  | none =>
    ⟨.returned (), (os.Rename host fs file (file ++ ".bak")).2,
      [.Rename file (file ++ ".bak")]⟩

/-- Method `SaveEnvironment` of `fileSystemEnvironmentProvider`; the result is the
returned `error`, `none` being `nil`. -/
def SaveEnvironment (c : Collaborators Target Snapshot Checkpoint) (host : Host)
    (env : Option Target) (snap : Option Snapshot) (fs : FileSystem) :
    Outcome (Option Error) :=
  match contract.Require c env.isSome "env" with
  | some p => ⟨.panicked p, fs, []⟩
  | none =>
    match env with
    | none => ⟨.panicked .nilDereference, fs, []⟩
    | some e =>
      let path := c.EnvPath (c.Name e)
      match c.Detect path with
      | (none, ext) =>
        ⟨.returned (some (serializationError ext)), fs,
          [.EnvPath (c.Name e), .Detect path]⟩
      | (some m, ext) =>
        let file := if filepath.Ext path = "" then path ++ ext else path
        let dep := c.SerializeCheckpoint e snap
        match m.Marshal dep with
        | .error err =>
          ⟨.returned (some err), fs,
            [.EnvPath (c.Name e), .Detect path, .SerializeCheckpoint, .Marshal]⟩
        | .ok b =>
          let bak := backupTarget c host file fs
          match bak.completion with
          | .panicked p =>
            ⟨.panicked p, bak.fs,
              [.EnvPath (c.Name e), .Detect path, .SerializeCheckpoint, .Marshal] ++ bak.calls⟩
          | .returned _ =>
            match os.MkdirAll host bak.fs (host.Dir file) with
            | (some err, fs1) =>
              ⟨.returned (some err), fs1,
                [.EnvPath (c.Name e), .Detect path, .SerializeCheckpoint, .Marshal]
                  ++ bak.calls ++ [.MkdirAll (host.Dir file)]⟩
            | (none, fs1) =>
              match ioutil.WriteFile host fs1 file b with
              | (some err, fs2) =>
                ⟨.returned (some err), fs2,
                  [.EnvPath (c.Name e), .Detect path, .SerializeCheckpoint, .Marshal]
                    ++ bak.calls ++ [.MkdirAll (host.Dir file), .WriteFile file b]⟩
              | (none, fs2) =>
                ⟨.returned none, fs2,
                  [.EnvPath (c.Name e), .Detect path, .SerializeCheckpoint, .Marshal]
                    ++ bak.calls ++ [.MkdirAll (host.Dir file), .WriteFile file b]⟩

/-- Method `RemoveEnvironment` of `fileSystemEnvironmentProvider`. -/
def RemoveEnvironment (c : Collaborators Target Snapshot Checkpoint) (host : Host)
    (env : Option Target) (fs : FileSystem) : Outcome (Option Error) :=
  match contract.Require c env.isSome "env" with
  | some p => ⟨.panicked p, fs, []⟩
  | none =>
    match env with
    | none => ⟨.panicked .nilDereference, fs, []⟩
    | some e =>
      let file := c.EnvPath (c.Name e)
      let bak := backupTarget c host file fs
      match bak.completion with
      | .panicked p => ⟨.panicked p, bak.fs, .EnvPath (c.Name e) :: bak.calls⟩
      | .returned _ => ⟨.returned none, bak.fs, .EnvPath (c.Name e) :: bak.calls⟩

end Provider

/-! ## A small concrete instance

One instance of every parameter, used to run the provider on concrete inputs. -/

/-- A target of the instance: a name and one configuration value. -/
structure DemoTarget where
  Name : String
  Config : Nat
  deriving DecidableEq

/-- A checkpoint of the instance: the target's fields and the optional snapshot, a list of
resource numbers. -/
structure DemoCheckpoint where
  Target : String
  Config : Nat
  Latest : Option (List Nat)
  deriving DecidableEq

/-- Splits the bytes at the first zero byte; the second part is absent when there is none. -/
def demoSplit : Bytes → List Nat × Option (List Nat)
  | [] => ([], none)
  | 0 :: rest => ([], some rest)
  | (n + 1) :: rest => ((n + 1) :: (demoSplit rest).1, (demoSplit rest).2)

/-- The codec of the instance.  A document is the configuration value, the character codes of
the name and, after a zero byte, the resources.  A resource that is not below 256 cannot be
encoded, and a document needs at least its first byte.  The generic decode reports a
configuration above 99 under the key `"extra"`, which the typed decode does not see. -/
def demoCodec : Marshaler DemoCheckpoint where
  Marshal cp :=
    match cp.Latest with
    | none => .ok (cp.Config :: cp.Target.data.map Char.toNat)
    | some rs =>
      if rs.all (fun r => decide (r < 256)) then
        .ok (cp.Config :: cp.Target.data.map Char.toNat ++ 0 :: rs)
      else .error (.foreign "resource out of range")
  UnmarshalCheckpoint b :=
    match b with
    | [] => .error (.foreign "empty document")
    | cfg :: rest =>
      .ok ⟨String.mk ((demoSplit rest).1.map Char.ofNat), cfg, (demoSplit rest).2⟩
  UnmarshalObject b :=
    match b with
    | [] => .error (.foreign "empty document")
    | cfg :: rest =>
      .ok ((if cfg < 100 then [] else [("extra", Value.scalar "?")]) ++
        ("target", Value.scalar (String.mk ((demoSplit rest).1.map Char.ofNat))) ::
        match (demoSplit rest).2 with
        | none => []
        | some rs =>
          [("latest", Value.object
            [("time", Value.scalar "now"),
             ("resources", Value.array (rs.map (fun r => Value.scalar (toString r))))])])

/-- The keys of a map. -/
def demoKeys (m : Obj) : List String := m.map Prod.fst

/-- The validator of the instance: the top-level keys are `"target"` and `"latest"`, and
`"latest"`, when it is a map, has no key but `"time"`. -/
def demoDecode (obj : Obj) : Option Error :=
  if (demoKeys obj).all (fun k => k = "target" || k = "latest") then
    match mapIndex obj "latest" with
    | .object latest =>
      if (demoKeys latest).all (fun k => k = "time") then none
      else some (.foreign "unknown field in latest")
    | _ => none
  else some (.foreign "unknown field")

/-- The collaborators of the instance.  An environment lives at `env/` followed by its name;
a path ending in `.json`, or without extension, gets the codec, any other none.  A violated
requirement or assertion panics. -/
def demo : Collaborators DemoTarget (List Nat) DemoCheckpoint where
  Name t := t.Name
  EnvPath name := "env/" ++ name
  Detect file :=
    if filepath.Ext file = "" then (some demoCodec, ".json")
    else if filepath.Ext file = ".json" then (some demoCodec, ".json")
    else (none, filepath.Ext file)
  SerializeCheckpoint t snap := ⟨t.Name, t.Config, snap⟩
  DeserializeCheckpoint cp := (some ⟨cp.Target, cp.Config⟩, cp.Latest)
  Decode := demoDecode
  requireFailed param := some (.failfast param)
  assertFailed := some (.failfast "assert")

/-- A host that never refuses a call. -/
def demoHost : Host where
  Dir _ := "env"
  openFails _ := false
  readFails _ := false
  renameFails _ _ := false
  mkdirFails _ := false
  writeFails _ := false

/-- A host on which no path without a regular file can be resolved: every such open fails
with an error other than not-exist.  It refuses nothing else. -/
def blockedHost : Host where
  Dir _ := "env"
  openFails _ := true
  readFails _ := false
  renameFails _ _ := false
  mkdirFails _ := false
  writeFails _ := false

/-- The empty file system. -/
def emptyFS : FileSystem := ⟨fun _ => none⟩

/-- The file system with one file. -/
def oneFile (path : String) (data : Bytes) : FileSystem :=
  ⟨fun p => if p = path then some data else none⟩

/-- The file system a successful save of `prod.json` with the given configuration value and no
snapshot leaves, in the concrete instance. -/
def demoSave (config : Nat) (fs : FileSystem) : FileSystem :=
  (SaveEnvironment demo demoHost (some ⟨"prod.json", config⟩) none fs).fs

/-- The documents handed to the structural validator, read off the list of calls. -/
def decodedDocuments : List Call → List Obj
  | [] => []
  | .Decode obj :: rest => obj :: decodedDocuments rest
  | _ :: rest => decodedDocuments rest

/-- The path `SaveEnvironment` writes for a resolved path and the codec's extension: line 89
to 91 of the source. -/
def saveFile (path ext : String) : String :=
  if filepath.Ext path = "" then path ++ ext else path

/-! ## Theorems -/

section Theorems

variable {Target Snapshot Checkpoint : Type}

/-- C4.  Unsupported extension.  When the format resolver returns no codec for the resolved
path, `GetEnvironment` (for a non-empty name) and `SaveEnvironment` (for a non-nil target)
return the illegal-markup-extension error built from the rejected extension; the only
outside calls made are the path resolution and the format detection (no read, rename,
directory creation or write), and the file system is the one the call started from. -/
theorem unsupported_extension_fails_untouched
    (c : Collaborators Target Snapshot Checkpoint) (host : Host) (fs : FileSystem)
    (name : String) (t : Target) (snap : Option Snapshot) (ext ext' : String)
    (hname : name ≠ "")
    (hget : c.Detect (c.EnvPath name) = (none, ext))
    (hsave : c.Detect (c.EnvPath (c.Name t)) = (none, ext')) :
    ((GetEnvironment c host name fs).completion
        = .returned ⟨none, none, none, some (.errorf
            ("resource deserialization failed; illegal markup extension: \x27" ++ ext ++ "\x27"))⟩
      ∧ (GetEnvironment c host name fs).fs = fs
      ∧ (GetEnvironment c host name fs).calls = [.EnvPath name, .Detect (c.EnvPath name)])
    ∧ ((SaveEnvironment c host (some t) snap fs).completion
        = .returned (some (.errorf
            ("resource serialization failed; illegal markup extension: \x27" ++ ext' ++ "\x27")))
      ∧ (SaveEnvironment c host (some t) snap fs).fs = fs
      ∧ (SaveEnvironment c host (some t) snap fs).calls
          = [.EnvPath (c.Name t), .Detect (c.EnvPath (c.Name t))]) := by
  refine ⟨?_, ?_⟩
  · simp [GetEnvironment, contract.Require, hname, hget, GetResult.failure,
      deserializationError]
  · simp [SaveEnvironment, contract.Require, hsave, serializationError]

/-- C4 at a concrete input: the name `notes.txt` in the concrete instance. -/
theorem unsupported_extension_fails_untouched_witness :
    ((GetEnvironment demo demoHost "notes.txt" emptyFS).completion
        = .returned ⟨none, none, none, some (.errorf
            ("resource deserialization failed; illegal markup extension: \x27" ++ ".txt" ++ "\x27"))⟩
      ∧ (GetEnvironment demo demoHost "notes.txt" emptyFS).fs = emptyFS
      ∧ (GetEnvironment demo demoHost "notes.txt" emptyFS).calls
          = [.EnvPath "notes.txt", .Detect (demo.EnvPath "notes.txt")])
    ∧ ((SaveEnvironment demo demoHost (some ⟨"notes.txt", 1⟩) (some [4]) emptyFS).completion
        = .returned (some (.errorf
            ("resource serialization failed; illegal markup extension: \x27" ++ ".txt" ++ "\x27")))
      ∧ (SaveEnvironment demo demoHost (some ⟨"notes.txt", 1⟩) (some [4]) emptyFS).fs = emptyFS
      ∧ (SaveEnvironment demo demoHost (some ⟨"notes.txt", 1⟩) (some [4]) emptyFS).calls
          = [.EnvPath (demo.Name ⟨"notes.txt", 1⟩),
             .Detect (demo.EnvPath (demo.Name ⟨"notes.txt", 1⟩))]) :=
  unsupported_extension_fails_untouched demo demoHost emptyFS "notes.txt" ⟨"notes.txt", 1⟩
    (some [4]) ".txt" ".txt" (by decide) rfl rfl

/-- C5, as the claim states it, fails.  In the concrete instance, on a host that cannot
resolve the path, `prod.json` has a codec and no file is at its path, and `GetEnvironment`
returns the error of the failed open, for which `os.IsNotExist` does not hold: a generic
I/O failure, not the not-found error. -/
theorem missing_file_generic_failure :
    emptyFS.files (demo.EnvPath "prod.json") = none
    ∧ (demo.Detect (demo.EnvPath "prod.json")).1.isSome = true
    ∧ (GetEnvironment demo blockedHost "prod.json" emptyFS).completion
        = .returned ⟨none, none, none, some (.pathError "open" "env/prod.json" false)⟩
    ∧ os.IsNotExist (.pathError "open" "env/prod.json" false) = false :=
  ⟨rfl, rfl, rfl, rfl⟩

/-- C5, amended.  For a non-empty name whose resolved path has a codec and holds no file,
`GetEnvironment` returns `nil, nil, nil` and the error of the failed read unchanged; the
outside calls stop at the read, so nothing is decoded and nothing is validated, and the file
system is unchanged.  `os.IsNotExist` holds for that error exactly when the host reports
the path as absent; when the host cannot resolve the path the error is its other I/O
failure. -/
theorem missing_file_returns_read_error
    (c : Collaborators Target Snapshot Checkpoint) (host : Host) (fs : FileSystem)
    (name : String) (m : Marshaler Checkpoint) (ext : String)
    (hname : name ≠ "")
    (hdet : c.Detect (c.EnvPath name) = (some m, ext))
    (habsent : fs.files (c.EnvPath name) = none) :
    ∃ err, (GetEnvironment c host name fs).completion = .returned ⟨none, none, none, some err⟩
      ∧ ioutil.ReadFile host fs (c.EnvPath name) = .error err
      ∧ (os.IsNotExist err = true ↔ host.openFails (c.EnvPath name) = false)
      ∧ (GetEnvironment c host name fs).calls
          = [.EnvPath name, .Detect (c.EnvPath name), .ReadFile (c.EnvPath name)]
      ∧ (GetEnvironment c host name fs).fs = fs := by
  refine ⟨.pathError "open" (c.EnvPath name) (!host.openFails (c.EnvPath name)),
    ?_, ?_, ?_, ?_, ?_⟩ <;>
    simp [GetEnvironment, contract.Require, hname, hdet, ioutil.ReadFile, habsent,
      GetResult.failure, os.IsNotExist]

/-- C5, amended, at a concrete input: `prod.json` in the empty file system, on a host that
reports the path as absent. -/
theorem missing_file_returns_read_error_witness :
    ∃ err, (GetEnvironment demo demoHost "prod.json" emptyFS).completion
        = .returned ⟨none, none, none, some err⟩
      ∧ ioutil.ReadFile demoHost emptyFS (demo.EnvPath "prod.json") = .error err
      ∧ (os.IsNotExist err = true ↔ demoHost.openFails (demo.EnvPath "prod.json") = false)
      ∧ (GetEnvironment demo demoHost "prod.json" emptyFS).calls
          = [.EnvPath "prod.json", .Detect (demo.EnvPath "prod.json"),
             .ReadFile (demo.EnvPath "prod.json")]
      ∧ (GetEnvironment demo demoHost "prod.json" emptyFS).fs = emptyFS :=
  missing_file_returns_read_error demo demoHost emptyFS "prod.json" demoCodec ".json"
    (by decide) rfl rfl

/-- C8.  Remove without prior file.  For a non-nil target whose (non-empty) checkpoint path
holds no file, `RemoveEnvironment` returns a nil error; the only file-system call is the
rename, which fails, its error being dropped; the file system is unchanged. -/
theorem remove_without_file_is_noop
    (c : Collaborators Target Snapshot Checkpoint) (host : Host) (fs : FileSystem)
    (t : Target)
    (hpath : c.EnvPath (c.Name t) ≠ "")
    (habsent : fs.files (c.EnvPath (c.Name t)) = none) :
    (RemoveEnvironment c host (some t) fs).completion = .returned none
    ∧ (RemoveEnvironment c host (some t) fs).fs = fs
    ∧ (RemoveEnvironment c host (some t) fs).calls
        = [.EnvPath (c.Name t),
           .Rename (c.EnvPath (c.Name t)) (c.EnvPath (c.Name t) ++ ".bak")]
    ∧ (os.Rename host fs (c.EnvPath (c.Name t)) (c.EnvPath (c.Name t) ++ ".bak")).1
        = some (.pathError "rename" (c.EnvPath (c.Name t)) true) := by
  simp [RemoveEnvironment, backupTarget, contract.Require, hpath, os.Rename, habsent]

/-- C8 at a concrete input: removing `prod.json` from the empty file system. -/
theorem remove_without_file_is_noop_witness :
    (RemoveEnvironment demo demoHost (some ⟨"prod.json", 1⟩) emptyFS).completion
        = .returned none
    ∧ (RemoveEnvironment demo demoHost (some ⟨"prod.json", 1⟩) emptyFS).fs = emptyFS
    ∧ (RemoveEnvironment demo demoHost (some ⟨"prod.json", 1⟩) emptyFS).calls
        = [.EnvPath (demo.Name ⟨"prod.json", 1⟩),
           .Rename (demo.EnvPath (demo.Name ⟨"prod.json", 1⟩))
             (demo.EnvPath (demo.Name ⟨"prod.json", 1⟩) ++ ".bak")]
    ∧ (os.Rename demoHost emptyFS (demo.EnvPath (demo.Name ⟨"prod.json", 1⟩))
          (demo.EnvPath (demo.Name ⟨"prod.json", 1⟩) ++ ".bak")).1
        = some (.pathError "rename" (demo.EnvPath (demo.Name ⟨"prod.json", 1⟩)) true) :=
  remove_without_file_is_noop demo demoHost emptyFS ⟨"prod.json", 1⟩ (by decide) rfl

/-- C9, as the claim states it, fails.  In the concrete instance, where a violated
requirement panics, `SaveEnvironment` and `RemoveEnvironment` called with a nil target do
not return: no error value reaches the caller. -/
theorem nil_target_returns_no_error :
    (SaveEnvironment demo demoHost none (some [1]) emptyFS).completion
        = .panicked (.failfast "env")
    ∧ (RemoveEnvironment demo demoHost none emptyFS).completion
        = .panicked (.failfast "env")
    ∧ (¬ ∃ err, (SaveEnvironment demo demoHost none (some [1]) emptyFS).completion
        = .returned (some err))
    ∧ (¬ ∃ err, (RemoveEnvironment demo demoHost none emptyFS).completion
        = .returned (some err)) := by
  refine ⟨rfl, rfl, ?_, ?_⟩
  · rintro ⟨err, h⟩
    have h' : (Completion.panicked (.failfast "env") : Completion (Option Error))
        = .returned (some err) := h
    cases h'
  · rintro ⟨err, h⟩
    have h' : (Completion.panicked (.failfast "env") : Completion (Option Error))
        = .returned (some err) := h
    cases h'

/-- C9, amended.  Whatever a violated `contract.Require` does, `SaveEnvironment` and
`RemoveEnvironment` called with a nil target end in a panic (the one of the requirement, or
else the nil dereference of `env.Name`) and never return a value; this happens before any
outside call (no path resolution, rename or write), and the file system is unchanged. -/
theorem nil_target_panics_before_any_call
    (c : Collaborators Target Snapshot Checkpoint) (host : Host) (snap : Option Snapshot)
    (fs : FileSystem) :
    ((∃ p, (SaveEnvironment c host none snap fs).completion = .panicked p)
      ∧ (∀ r, (SaveEnvironment c host none snap fs).completion ≠ .returned r)
      ∧ (SaveEnvironment c host none snap fs).calls = []
      ∧ (SaveEnvironment c host none snap fs).fs = fs)
    ∧ ((∃ p, (RemoveEnvironment c host none fs).completion = .panicked p)
      ∧ (∀ r, (RemoveEnvironment c host none fs).completion ≠ .returned r)
      ∧ (RemoveEnvironment c host none fs).calls = []
      ∧ (RemoveEnvironment c host none fs).fs = fs) := by
  constructor
  · cases h : c.requireFailed "env" <;>
      simp [SaveEnvironment, contract.Require, h]
  · cases h : c.requireFailed "env" <;>
      simp [RemoveEnvironment, contract.Require, h]

/-- C10.  An encoding failure leaves the file system alone.  For a non-nil target whose
path has a codec, when `Marshal` of the serialized checkpoint fails, `SaveEnvironment`
returns that error; the outside calls stop at `Marshal`, so no rename, directory creation or
write was made, and the file system is unchanged. -/
theorem marshal_failure_leaves_files
    (c : Collaborators Target Snapshot Checkpoint) (host : Host) (fs : FileSystem)
    (t : Target) (snap : Option Snapshot) (m : Marshaler Checkpoint) (ext : String)
    (err : Error)
    (hdet : c.Detect (c.EnvPath (c.Name t)) = (some m, ext))
    (hmarshal : m.Marshal (c.SerializeCheckpoint t snap) = .error err) :
    (SaveEnvironment c host (some t) snap fs).completion = .returned (some err)
    ∧ (SaveEnvironment c host (some t) snap fs).fs = fs
    ∧ (SaveEnvironment c host (some t) snap fs).calls
        = [.EnvPath (c.Name t), .Detect (c.EnvPath (c.Name t)), .SerializeCheckpoint,
           .Marshal] := by
  simp [SaveEnvironment, contract.Require, hdet, hmarshal]

/-- C10 at a concrete input: a snapshot with a resource that the codec cannot encode, saved
over an existing checkpoint. -/
theorem marshal_failure_leaves_files_witness :
    (SaveEnvironment demo demoHost (some ⟨"prod.json", 1⟩) (some [300])
        (oneFile "env/prod.json" [1, 112])).completion
        = .returned (some (.foreign "resource out of range"))
    ∧ (SaveEnvironment demo demoHost (some ⟨"prod.json", 1⟩) (some [300])
        (oneFile "env/prod.json" [1, 112])).fs = oneFile "env/prod.json" [1, 112]
    ∧ (SaveEnvironment demo demoHost (some ⟨"prod.json", 1⟩) (some [300])
        (oneFile "env/prod.json" [1, 112])).calls
        = [.EnvPath (demo.Name ⟨"prod.json", 1⟩),
           .Detect (demo.EnvPath (demo.Name ⟨"prod.json", 1⟩)), .SerializeCheckpoint,
           .Marshal] :=
  marshal_failure_leaves_files demo demoHost (oneFile "env/prod.json" [1, 112])
    ⟨"prod.json", 1⟩ (some [300]) demoCodec ".json" (.foreign "resource out of range") rfl rfl

/-! ### Maps -/

theorem mapLookup_mapStore (m : Obj) (k k' : String) (v : Value) :
    mapLookup (mapStore m k v) k' = if k' = k then some v else mapLookup m k' := by
  induction m with
  | nil =>
    by_cases h : k' = k
    · simp [mapStore, mapLookup, h]
    · have h' : ¬ k = k' := fun e => h e.symm
      simp [mapStore, mapLookup, h, h']
  | cons kv rest ih =>
    obtain ⟨k0, v0⟩ := kv
    by_cases h0 : k0 = k
    · subst h0
      by_cases h : k' = k0
      · simp [mapStore, mapLookup, h]
      · have h' : ¬ k0 = k' := fun e => h e.symm
        simp [mapStore, mapLookup, h, h']
    · by_cases h1 : k0 = k'
      · subst h1
        simp [mapStore, mapLookup, h0]
      · simp [mapStore, mapLookup, h0, h1, ih]

theorem mapLookup_mapDelete (m : Obj) (k k' : String) :
    mapLookup (mapDelete m k) k' = if k' = k then none else mapLookup m k' := by
  induction m with
  | nil => simp [mapDelete, mapLookup]
  | cons kv rest ih =>
    obtain ⟨k0, v0⟩ := kv
    by_cases h0 : k0 = k
    · subst h0
      by_cases h : k' = k0
      · subst h
        simpa [mapDelete] using ih
      · have h' : ¬ k0 = k' := fun e => h e.symm
        simp [mapDelete, mapLookup, h, h', ih]
    · by_cases h1 : k0 = k'
      · subst h1
        simp [mapDelete, mapLookup, h0]
      · simp [mapDelete, mapLookup, h0, h1, ih]

theorem mapDelete_mapStore (m : Obj) (k : String) (v : Value) :
    mapDelete (mapStore m k v) k = mapDelete m k := by
  induction m with
  | nil => simp [mapDelete, mapStore]
  | cons kv rest ih =>
    obtain ⟨k0, v0⟩ := kv
    by_cases h0 : k0 = k
    · subst h0
      simp [mapDelete, mapStore]
    · simp [mapDelete, mapStore, h0, ih]

theorem mapStore_mapStore (m : Obj) (k : String) (v v' : Value) :
    mapStore (mapStore m k v) k v' = mapStore m k v' := by
  induction m with
  | nil => simp [mapStore]
  | cons kv rest ih =>
    obtain ⟨k0, v0⟩ := kv
    by_cases h0 : k0 = k
    · subst h0
      simp [mapStore]
    · simp [mapStore, h0, ih]

theorem stripResources_of_object (obj latest : Obj)
    (h : mapLookup obj "latest" = some (.object latest)) :
    stripResources obj = mapStore obj "latest" (.object (mapDelete latest "resources")) := by
  simp [stripResources, mapIndex, h, Value.notNil]

/-! ### Loading -/

/-- What `GetEnvironment` does once the file has been read and decoded twice: the outcome is
decided by the validator's verdict on the stripped generic document alone. -/
theorem GetEnvironment_decoded
    (c : Collaborators Target Snapshot Checkpoint) (host : Host) (fs : FileSystem)
    (name : String) (m : Marshaler Checkpoint) (ext : String) (b : Bytes)
    (cp : Checkpoint) (obj : Obj)
    (hname : name ≠ "")
    (hdet : c.Detect (c.EnvPath name) = (some m, ext))
    (hread : ioutil.ReadFile host fs (c.EnvPath name) = .ok b)
    (htyped : m.UnmarshalCheckpoint b = .ok cp)
    (hgeneric : m.UnmarshalObject b = .ok obj) :
    decodedDocuments (GetEnvironment c host name fs).calls = [stripResources obj]
    ∧ (∀ err, c.Decode (stripResources obj) = some err →
        (GetEnvironment c host name fs).completion = .returned ⟨none, none, none, some err⟩)
    ∧ (c.Decode (stripResources obj) = none →
        ∀ r, (GetEnvironment c host name fs).completion = .returned r → r.err = none)
    ∧ (c.Decode (stripResources obj) = none →
        ∀ t s, c.DeserializeCheckpoint cp = (some t, s) →
        (GetEnvironment c host name fs).completion = .returned ⟨some t, s, some cp, none⟩) := by
  refine ⟨?_, ?_, ?_, ?_⟩
  · cases hd : c.Decode (stripResources obj) with
    | some err =>
      simp [GetEnvironment, contract.Require, hname, hdet, hread, htyped, hgeneric, hd,
        decodedDocuments]
    | none =>
      cases ha : contract.Assert c (c.DeserializeCheckpoint cp).1.isSome <;>
        simp [GetEnvironment, contract.Require, hname, hdet, hread, htyped, hgeneric, hd, ha,
          decodedDocuments]
  · intro err hd
    simp [GetEnvironment, contract.Require, hname, hdet, hread, htyped, hgeneric, hd,
      GetResult.failure]
  · intro hd r
    cases ha : contract.Assert c (c.DeserializeCheckpoint cp).1.isSome <;>
      simp [GetEnvironment, contract.Require, hname, hdet, hread, htyped, hgeneric, hd, ha]
    rintro rfl
    rfl
  · intro hd t s hts
    simp [GetEnvironment, contract.Require, contract.Assert, hname, hdet, hread, htyped,
      hgeneric, hd, hts]

/-- C2.  Schema strictness.  For a file whose bytes decode into the typed checkpoint and into
the generic map, when the validator rejects the stripped generic document, `GetEnvironment`
returns `nil, nil, nil` and the validator's error, although the typed decode succeeded.  A
top-level key other than `"latest"` is bound in the stripped document exactly as in the
decoded one, so an unexpected top-level key is still there for the validator to reject. -/
theorem schema_violation_rejected
    (c : Collaborators Target Snapshot Checkpoint) (host : Host) (fs : FileSystem)
    (name : String) (m : Marshaler Checkpoint) (ext : String) (b : Bytes)
    (cp : Checkpoint) (obj : Obj) (err : Error)
    (hname : name ≠ "")
    (hdet : c.Detect (c.EnvPath name) = (some m, ext))
    (hread : ioutil.ReadFile host fs (c.EnvPath name) = .ok b)
    (htyped : m.UnmarshalCheckpoint b = .ok cp)
    (hgeneric : m.UnmarshalObject b = .ok obj)
    (hreject : c.Decode (stripResources obj) = some err) :
    (GetEnvironment c host name fs).completion = .returned ⟨none, none, none, some err⟩
    ∧ decodedDocuments (GetEnvironment c host name fs).calls = [stripResources obj]
    ∧ (∀ k, k ≠ "latest" → mapLookup (stripResources obj) k = mapLookup obj k) := by
  have hd := GetEnvironment_decoded c host fs name m ext b cp obj hname hdet hread htyped
    hgeneric
  refine ⟨hd.2.1 err hreject, hd.1, ?_⟩
  intro k hk
  unfold stripResources
  split
  · split
    · simp [mapLookup_mapStore, hk]
    · rfl
  · rfl

/-- After a successful read and the two decodes, `GetEnvironment` returns `nil, nil, nil` and
an error exactly when that error is the validator's verdict on the stripped document. -/
theorem GetEnvironment_error_iff
    (c : Collaborators Target Snapshot Checkpoint) (host : Host) (fs : FileSystem)
    (name : String) (m : Marshaler Checkpoint) (ext : String) (b : Bytes)
    (cp : Checkpoint) (obj : Obj)
    (hname : name ≠ "")
    (hdet : c.Detect (c.EnvPath name) = (some m, ext))
    (hread : ioutil.ReadFile host fs (c.EnvPath name) = .ok b)
    (htyped : m.UnmarshalCheckpoint b = .ok cp)
    (hgeneric : m.UnmarshalObject b = .ok obj) (err : Error) :
    (GetEnvironment c host name fs).completion = .returned ⟨none, none, none, some err⟩
      ↔ c.Decode (stripResources obj) = some err := by
  have hd := GetEnvironment_decoded c host fs name m ext b cp obj hname hdet hread htyped
    hgeneric
  constructor
  · intro h
    cases hv : c.Decode (stripResources obj) with
    | none =>
      have := hd.2.2.1 hv _ h
      simp at this
    | some e =>
      have h2 := hd.2.1 e hv
      rw [h] at h2
      injection h2 with h3
      injection h3 with _ _ _ h4
      exact h4.symm
  · intro hv
    exact hd.2.1 err hv

/-- C3.  Resource exemption.  For a file whose generic decode `obj` binds `"latest"` to a map,
the one document `GetEnvironment` hands to the validator is `obj` with `"latest"` rebound to
that map without its key `"resources"`: every key other than `"latest"` is bound as in `obj`,
and every key of `"latest"` other than `"resources"` is bound as before.  Hence a second file
whose generic decode differs from `obj` only in what `latest.resources` is bound to gets the
same document validated and fails validation with an error exactly when the first does; and
when the validator accepts the stripped document (whatever it says of `obj` itself),
`GetEnvironment` returns the deserialized target and snapshot with a nil error. -/
theorem resources_exempt_from_validation
    (c : Collaborators Target Snapshot Checkpoint) (host : Host) (fs fs' : FileSystem)
    (name : String) (m : Marshaler Checkpoint) (ext : String) (b b' : Bytes)
    (cp cp' : Checkpoint) (obj latest : Obj) (resources' : Value)
    (hname : name ≠ "")
    (hdet : c.Detect (c.EnvPath name) = (some m, ext))
    (hread : ioutil.ReadFile host fs (c.EnvPath name) = .ok b)
    (htyped : m.UnmarshalCheckpoint b = .ok cp)
    (hgeneric : m.UnmarshalObject b = .ok obj)
    (hlatest : mapLookup obj "latest" = some (.object latest))
    (hread' : ioutil.ReadFile host fs' (c.EnvPath name) = .ok b')
    (htyped' : m.UnmarshalCheckpoint b' = .ok cp')
    (hgeneric' : m.UnmarshalObject b'
      = .ok (mapStore obj "latest" (.object (mapStore latest "resources" resources')))) :
    decodedDocuments (GetEnvironment c host name fs).calls
        = [mapStore obj "latest" (.object (mapDelete latest "resources"))]
    ∧ (∀ k, mapLookup (mapStore obj "latest" (.object (mapDelete latest "resources"))) k
        = if k = "latest" then some (.object (mapDelete latest "resources"))
          else mapLookup obj k)
    ∧ (∀ k, mapLookup (mapDelete latest "resources") k
        = if k = "resources" then none else mapLookup latest k)
    ∧ decodedDocuments (GetEnvironment c host name fs').calls
        = decodedDocuments (GetEnvironment c host name fs).calls
    ∧ (∀ err,
        (GetEnvironment c host name fs').completion = .returned ⟨none, none, none, some err⟩
        ↔ (GetEnvironment c host name fs).completion = .returned ⟨none, none, none, some err⟩)
    ∧ (c.Decode (mapStore obj "latest" (.object (mapDelete latest "resources"))) = none →
        ∀ t s, c.DeserializeCheckpoint cp = (some t, s) →
        (GetEnvironment c host name fs).completion = .returned ⟨some t, s, some cp, none⟩) := by
  have hs := stripResources_of_object obj latest hlatest
  have hs' : stripResources (mapStore obj "latest"
      (.object (mapStore latest "resources" resources')))
      = mapStore obj "latest" (.object (mapDelete latest "resources")) := by
    rw [stripResources_of_object _ (mapStore latest "resources" resources')
      (by simp [mapLookup_mapStore]), mapStore_mapStore, mapDelete_mapStore]
  have hd := GetEnvironment_decoded c host fs name m ext b cp obj hname hdet hread htyped
    hgeneric
  have hd' := GetEnvironment_decoded c host fs' name m ext b' cp' _ hname hdet hread' htyped'
    hgeneric'
  rw [hs] at hd
  rw [hs'] at hd'
  refine ⟨hd.1, fun k => mapLookup_mapStore _ _ _ _, fun k => mapLookup_mapDelete _ _ _, ?_,
    ?_, hd.2.2.2⟩
  · rw [hd.1, hd'.1]
  · intro err
    rw [GetEnvironment_error_iff c host fs name m ext b cp obj hname hdet hread htyped hgeneric,
      GetEnvironment_error_iff c host fs' name m ext b' cp' _ hname hdet hread' htyped'
        hgeneric', hs, hs']

/-! ### Saving -/

/-- C1.  Round trip.  For a target with a non-empty name whose resolved path has an extension
and a codec, when the codec decodes the bytes it encoded back to the serialized checkpoint
and to some generic document, the validator accepts that document once stripped,
`DeserializeCheckpoint` inverts `SerializeCheckpoint`, the directory creation and the write
succeed and the written file can be read, `SaveEnvironment` returns a nil error and
`GetEnvironment` of the target's name on the file system it leaves returns the target and
the snapshot that were saved, with a nil error. -/
theorem save_then_get_round_trip
    (c : Collaborators Target Snapshot Checkpoint) (host host' : Host) (fs : FileSystem)
    (t : Target) (s : Option Snapshot) (m : Marshaler Checkpoint) (ext : String)
    (b : Bytes) (obj : Obj)
    (hname : c.Name t ≠ "")
    (hdet : c.Detect (c.EnvPath (c.Name t)) = (some m, ext))
    (hext : filepath.Ext (c.EnvPath (c.Name t)) ≠ "")
    (hmarshal : m.Marshal (c.SerializeCheckpoint t s) = .ok b)
    (htyped : m.UnmarshalCheckpoint b = .ok (c.SerializeCheckpoint t s))
    (hgeneric : m.UnmarshalObject b = .ok obj)
    (hvalid : c.Decode (stripResources obj) = none)
    (hinverse : c.DeserializeCheckpoint (c.SerializeCheckpoint t s) = (some t, s))
    (hmkdir : host.mkdirFails (host.Dir (c.EnvPath (c.Name t))) = false)
    (hwrite : host.writeFails (c.EnvPath (c.Name t)) = false)
    (hreadable : host'.readFails (c.EnvPath (c.Name t)) = false) :
    (SaveEnvironment c host (some t) s fs).completion = .returned none
    ∧ (GetEnvironment c host' (c.Name t) (SaveEnvironment c host (some t) s fs).fs).completion
        = .returned ⟨some t, s, some (c.SerializeCheckpoint t s), none⟩ := by
  have hpath : c.EnvPath (c.Name t) ≠ "" := by
    intro h
    apply hext
    rw [h]
    rfl
  have hsave : (SaveEnvironment c host (some t) s fs).completion = .returned none := by
    simp [SaveEnvironment, backupTarget, contract.Require, hdet, hext, hmarshal, hpath,
      os.MkdirAll, ioutil.WriteFile, hmkdir, hwrite]
  have hfile : ioutil.ReadFile host' (SaveEnvironment c host (some t) s fs).fs
      (c.EnvPath (c.Name t)) = .ok b := by
    simp [SaveEnvironment, backupTarget, contract.Require, hdet, hext, hmarshal, hpath,
      os.MkdirAll, ioutil.WriteFile, hmkdir, hwrite, ioutil.ReadFile, hreadable]
  exact ⟨hsave, (GetEnvironment_decoded c host' _ (c.Name t) m ext b _ obj hname hdet hfile
    htyped hgeneric).2.2.2 hvalid t s hinverse⟩

theorem ne_append_bak (file : String) : file ≠ file ++ ".bak" := by
  intro h
  have hl := congrArg String.length h
  rw [String.length_append] at hl
  have : (".bak" : String).length = 4 := rfl
  omega

theorem Rename_files_other (host : Host) (fs : FileSystem) (oldpath newpath p : String)
    (ho : p ≠ oldpath) (hn : p ≠ newpath) :
    (os.Rename host fs oldpath newpath).2.files p = fs.files p := by
  unfold os.Rename
  split
  · rfl
  · split
    · rfl
    · simp [ho, hn]

/-- The file system a successful `SaveEnvironment` leaves: the bytes are at the destination,
every other path is as the rename of the backup step left it. -/
theorem SaveEnvironment_success_fs
    (c : Collaborators Target Snapshot Checkpoint) (host : Host) (fs : FileSystem)
    (t : Target) (s : Option Snapshot) (m : Marshaler Checkpoint) (ext : String) (b : Bytes)
    (hdet : c.Detect (c.EnvPath (c.Name t)) = (some m, ext))
    (hmarshal : m.Marshal (c.SerializeCheckpoint t s) = .ok b)
    (hok : (SaveEnvironment c host (some t) s fs).completion = .returned none) (p : String) :
    (SaveEnvironment c host (some t) s fs).fs.files p
      = if p = saveFile (c.EnvPath (c.Name t)) ext then some b
        else (os.Rename host fs (saveFile (c.EnvPath (c.Name t)) ext)
          (saveFile (c.EnvPath (c.Name t)) ext ++ ".bak")).2.files p := by
  revert hok
  unfold saveFile
  simp only [SaveEnvironment, contract.Require, Option.isSome_some, if_true, hdet, hmarshal,
    backupTarget]
  generalize (if filepath.Ext (c.EnvPath (c.Name t)) = "" then c.EnvPath (c.Name t) ++ ext
    else c.EnvPath (c.Name t)) = file
  by_cases hfile : file = ""
  · subst hfile
    cases hreq : c.requireFailed "file" <;>
      cases hmk : host.mkdirFails (host.Dir "") <;>
      cases hwr : host.writeFails "" <;>
      simp [hreq, os.MkdirAll, ioutil.WriteFile, hmk, hwr]
  · cases hmk : host.mkdirFails (host.Dir file) <;>
      cases hwr : host.writeFails file <;>
      simp [hfile, os.MkdirAll, ioutil.WriteFile, hmk, hwr]

theorem Rename_files_success (host : Host) (fs : FileSystem) (oldpath newpath : String)
    (b : Bytes) (hold : fs.files oldpath = some b)
    (hren : host.renameFails oldpath newpath = false) (p : String) :
    (os.Rename host fs oldpath newpath).2.files p
      = if p = newpath then some b else if p = oldpath then none else fs.files p := by
  simp [os.Rename, hold, hren]

/-- C7.  Backup idempotence.  Three successful calls of `SaveEnvironment` in a row for the
same name, with encodings `b1`, `b2`, `b3`, the renames of the second and third call
succeeding: after the second call the destination holds `b2` and destination + `.bak` holds
`b1`; after the third the destination holds `b3` and the same backup path holds `b2`; and
after each of the three calls every path other than these two holds what it held at the
start. -/
theorem three_saves_keep_one_backup
    (c : Collaborators Target Snapshot Checkpoint) (h1 h2 h3 : Host) (fs0 : FileSystem)
    (t1 t2 t3 : Target) (s1 s2 s3 : Option Snapshot) (m : Marshaler Checkpoint)
    (ext : String) (b1 b2 b3 : Bytes)
    (hn2 : c.Name t2 = c.Name t1) (hn3 : c.Name t3 = c.Name t1)
    (hdet : c.Detect (c.EnvPath (c.Name t1)) = (some m, ext))
    (hb1 : m.Marshal (c.SerializeCheckpoint t1 s1) = .ok b1)
    (hb2 : m.Marshal (c.SerializeCheckpoint t2 s2) = .ok b2)
    (hb3 : m.Marshal (c.SerializeCheckpoint t3 s3) = .ok b3)
    (hok1 : (SaveEnvironment c h1 (some t1) s1 fs0).completion = .returned none)
    (hok2 : (SaveEnvironment c h2 (some t2) s2
      (SaveEnvironment c h1 (some t1) s1 fs0).fs).completion = .returned none)
    (hok3 : (SaveEnvironment c h3 (some t3) s3
      (SaveEnvironment c h2 (some t2) s2
        (SaveEnvironment c h1 (some t1) s1 fs0).fs).fs).completion = .returned none)
    (hren2 : h2.renameFails (saveFile (c.EnvPath (c.Name t1)) ext)
      (saveFile (c.EnvPath (c.Name t1)) ext ++ ".bak") = false)
    (hren3 : h3.renameFails (saveFile (c.EnvPath (c.Name t1)) ext)
      (saveFile (c.EnvPath (c.Name t1)) ext ++ ".bak") = false) :
    (SaveEnvironment c h2 (some t2) s2 (SaveEnvironment c h1 (some t1) s1 fs0).fs).fs.files
        (saveFile (c.EnvPath (c.Name t1)) ext) = some b2
    ∧ (SaveEnvironment c h2 (some t2) s2 (SaveEnvironment c h1 (some t1) s1 fs0).fs).fs.files
        (saveFile (c.EnvPath (c.Name t1)) ext ++ ".bak") = some b1
    ∧ (SaveEnvironment c h3 (some t3) s3 (SaveEnvironment c h2 (some t2) s2
        (SaveEnvironment c h1 (some t1) s1 fs0).fs).fs).fs.files
        (saveFile (c.EnvPath (c.Name t1)) ext) = some b3
    ∧ (SaveEnvironment c h3 (some t3) s3 (SaveEnvironment c h2 (some t2) s2
        (SaveEnvironment c h1 (some t1) s1 fs0).fs).fs).fs.files
        (saveFile (c.EnvPath (c.Name t1)) ext ++ ".bak") = some b2
    ∧ ∀ p, p ≠ saveFile (c.EnvPath (c.Name t1)) ext →
        p ≠ saveFile (c.EnvPath (c.Name t1)) ext ++ ".bak" →
        (SaveEnvironment c h1 (some t1) s1 fs0).fs.files p = fs0.files p
        ∧ (SaveEnvironment c h2 (some t2) s2
            (SaveEnvironment c h1 (some t1) s1 fs0).fs).fs.files p = fs0.files p
        ∧ (SaveEnvironment c h3 (some t3) s3 (SaveEnvironment c h2 (some t2) s2
            (SaveEnvironment c h1 (some t1) s1 fs0).fs).fs).fs.files p = fs0.files p := by
  have hdet2 : c.Detect (c.EnvPath (c.Name t2)) = (some m, ext) := by rw [hn2]; exact hdet
  have hdet3 : c.Detect (c.EnvPath (c.Name t3)) = (some m, ext) := by rw [hn3]; exact hdet
  have H1 := SaveEnvironment_success_fs c h1 fs0 t1 s1 m ext b1 hdet hb1 hok1
  have H2 := SaveEnvironment_success_fs c h2 _ t2 s2 m ext b2 hdet2 hb2 hok2
  have H3 := SaveEnvironment_success_fs c h3 _ t3 s3 m ext b3 hdet3 hb3 hok3
  rw [hn2] at H2
  rw [hn3] at H3
  generalize (SaveEnvironment c h3 (some t3) s3 (SaveEnvironment c h2 (some t2) s2
    (SaveEnvironment c h1 (some t1) s1 fs0).fs).fs).fs = F3 at H3 ⊢
  generalize (SaveEnvironment c h2 (some t2) s2
    (SaveEnvironment c h1 (some t1) s1 fs0).fs).fs = F2 at H2 H3 ⊢
  generalize (SaveEnvironment c h1 (some t1) s1 fs0).fs = F1 at H1 H2 ⊢
  generalize saveFile (c.EnvPath (c.Name t1)) ext = dest at H1 H2 H3 hren2 hren3 ⊢
  have hne : dest ++ ".bak" ≠ dest := fun e => ne_append_bak dest e.symm
  have hd1 : F1.files dest = some b1 := by rw [H1]; simp
  have hd2 : F2.files dest = some b2 := by rw [H2]; simp
  have hd3 : F3.files dest = some b3 := by rw [H3]; simp
  have hk2 : F2.files (dest ++ ".bak") = some b1 := by
    rw [H2, Rename_files_success h2 F1 dest _ b1 hd1 hren2]
    simp [hne]
  have hk3 : F3.files (dest ++ ".bak") = some b2 := by
    rw [H3, Rename_files_success h3 F2 dest _ b2 hd2 hren3]
    simp [hne]
  refine ⟨hd2, hk2, hd3, hk3, ?_⟩
  intro p hp hpb
  have e1 : F1.files p = fs0.files p := by
    rw [H1, if_neg hp, Rename_files_other h1 fs0 dest _ p hp hpb]
  have e2 : F2.files p = fs0.files p := by
    rw [H2, if_neg hp, Rename_files_other h2 F1 dest _ p hp hpb, e1]
  have e3 : F3.files p = fs0.files p := by
    rw [H3, if_neg hp, Rename_files_other h3 F2 dest _ p hp hpb, e2]
  exact ⟨e1, e2, e3⟩

/-- C1 at a concrete input: `prod.json` with two resources, saved into the empty file system
and loaded again. -/
theorem save_then_get_round_trip_witness :
    (SaveEnvironment demo demoHost (some ⟨"prod.json", 7⟩) (some [1, 2]) emptyFS).completion
        = .returned none
    ∧ (GetEnvironment demo demoHost (demo.Name ⟨"prod.json", 7⟩)
        (SaveEnvironment demo demoHost (some ⟨"prod.json", 7⟩) (some [1, 2]) emptyFS).fs).completion
        = .returned ⟨some ⟨"prod.json", 7⟩, some [1, 2],
            some (demo.SerializeCheckpoint ⟨"prod.json", 7⟩ (some [1, 2])), none⟩ :=
  save_then_get_round_trip demo demoHost demoHost emptyFS ⟨"prod.json", 7⟩ (some [1, 2])
    demoCodec ".json" [7, 112, 114, 111, 100, 46, 106, 115, 111, 110, 0, 1, 2]
    [("target", .scalar "prod.json"),
     ("latest", .object [("time", .scalar "now"),
       ("resources", .array [.scalar "1", .scalar "2"])])]
    (by decide) rfl (by decide) rfl rfl rfl rfl rfl rfl rfl rfl

/-- C2 at a concrete input: a file whose generic decode has the top-level key `"extra"`, which
the typed decode does not see. -/
theorem schema_violation_rejected_witness :
    mapLookup [("extra", Value.scalar "?"), ("target", Value.scalar "p")] "extra"
        = some (Value.scalar "?")
    ∧ demoCodec.UnmarshalCheckpoint [107, 112] = .ok ⟨"p", 107, none⟩
    ∧ (GetEnvironment demo demoHost "prod.json" (oneFile "env/prod.json" [107, 112])).completion
        = .returned ⟨none, none, none, some (.foreign "unknown field")⟩ :=
  ⟨rfl, rfl,
    (schema_violation_rejected demo demoHost (oneFile "env/prod.json" [107, 112]) "prod.json"
      demoCodec ".json" [107, 112] ⟨"p", 107, none⟩
      [("extra", .scalar "?"), ("target", .scalar "p")] (.foreign "unknown field")
      (by decide) rfl rfl rfl rfl rfl).1⟩

/-- C3 at a concrete input: two files that differ in their resources only.  The validator of
the instance rejects the decoded document as it is, because of `latest.resources`, and
`GetEnvironment` still succeeds. -/
theorem resources_exempt_from_validation_witness :
    demoDecode [("target", .scalar "p"),
        ("latest", .object [("time", .scalar "now"),
          ("resources", .array [.scalar "1", .scalar "2"])])]
        = some (.foreign "unknown field in latest")
    ∧ decodedDocuments
        (GetEnvironment demo demoHost "prod.json" (oneFile "env/prod.json" [7, 112, 0, 1, 2])).calls
        = [[("target", .scalar "p"), ("latest", .object [("time", .scalar "now")])]]
    ∧ decodedDocuments
        (GetEnvironment demo demoHost "prod.json" (oneFile "env/prod.json" [7, 112, 0, 3])).calls
        = decodedDocuments
          (GetEnvironment demo demoHost "prod.json"
            (oneFile "env/prod.json" [7, 112, 0, 1, 2])).calls
    ∧ (GetEnvironment demo demoHost "prod.json"
        (oneFile "env/prod.json" [7, 112, 0, 1, 2])).completion
        = .returned ⟨some ⟨"p", 7⟩, some [1, 2], some ⟨"p", 7, some [1, 2]⟩, none⟩ :=
  have h := resources_exempt_from_validation demo demoHost
    (oneFile "env/prod.json" [7, 112, 0, 1, 2]) (oneFile "env/prod.json" [7, 112, 0, 3])
    "prod.json" demoCodec ".json" [7, 112, 0, 1, 2] [7, 112, 0, 3]
    ⟨"p", 7, some [1, 2]⟩ ⟨"p", 7, some [3]⟩
    [("target", .scalar "p"),
     ("latest", .object [("time", .scalar "now"),
       ("resources", .array [.scalar "1", .scalar "2"])])]
    [("time", .scalar "now"), ("resources", .array [.scalar "1", .scalar "2"])]
    (.array [.scalar "3"])
    (by decide) rfl rfl rfl rfl rfl rfl rfl rfl
  ⟨rfl, h.1, h.2.2.2.1, h.2.2.2.2.2 rfl ⟨"p", 7⟩ (some [1, 2]) rfl⟩

/-- C7 at a concrete input: `prod.json` saved three times, with configuration values 1, 2
and 3, starting from the empty file system. -/
theorem three_saves_keep_one_backup_witness :
    (demoSave 2 (demoSave 1 emptyFS)).files "env/prod.json"
        = some [2, 112, 114, 111, 100, 46, 106, 115, 111, 110]
    ∧ (demoSave 2 (demoSave 1 emptyFS)).files "env/prod.json.bak"
        = some [1, 112, 114, 111, 100, 46, 106, 115, 111, 110]
    ∧ (demoSave 3 (demoSave 2 (demoSave 1 emptyFS))).files "env/prod.json"
        = some [3, 112, 114, 111, 100, 46, 106, 115, 111, 110]
    ∧ (demoSave 3 (demoSave 2 (demoSave 1 emptyFS))).files "env/prod.json.bak"
        = some [2, 112, 114, 111, 100, 46, 106, 115, 111, 110]
    ∧ ∀ p, p ≠ "env/prod.json" → p ≠ "env/prod.json.bak" →
        (demoSave 1 emptyFS).files p = emptyFS.files p
        ∧ (demoSave 2 (demoSave 1 emptyFS)).files p = emptyFS.files p
        ∧ (demoSave 3 (demoSave 2 (demoSave 1 emptyFS))).files p = emptyFS.files p :=
  three_saves_keep_one_backup demo demoHost demoHost demoHost emptyFS
    ⟨"prod.json", 1⟩ ⟨"prod.json", 2⟩ ⟨"prod.json", 3⟩ none none none demoCodec ".json"
    [1, 112, 114, 111, 100, 46, 106, 115, 111, 110]
    [2, 112, 114, 111, 100, 46, 106, 115, 111, 110]
    [3, 112, 114, 111, 100, 46, 106, 115, 111, 110]
    rfl rfl rfl rfl rfl rfl rfl rfl rfl rfl rfl

/-- Between the resolved path and the file `SaveEnvironment` writes for it there is, when
the path has no extension, the codec's extension; `GetEnvironment` reads the resolved path.
So a save of an extensionless path with a non-empty extension leaves the file that
`GetEnvironment` reads as it was. -/
theorem extensionless_save_keeps_get_file
    (c : Collaborators Target Snapshot Checkpoint) (host : Host) (fs : FileSystem)
    (t : Target) (s : Option Snapshot) (m : Marshaler Checkpoint) (ext : String) (b : Bytes)
    (hdet : c.Detect (c.EnvPath (c.Name t)) = (some m, ext))
    (hnoext : filepath.Ext (c.EnvPath (c.Name t)) = "")
    (hext : ext ≠ "")
    (hmarshal : m.Marshal (c.SerializeCheckpoint t s) = .ok b)
    (hok : (SaveEnvironment c host (some t) s fs).completion = .returned none) :
    (SaveEnvironment c host (some t) s fs).fs.files (c.EnvPath (c.Name t) ++ ext) = some b
    ∧ (SaveEnvironment c host (some t) s fs).fs.files (c.EnvPath (c.Name t))
        = fs.files (c.EnvPath (c.Name t)) := by
  have H := SaveEnvironment_success_fs c host fs t s m ext b hdet hmarshal hok
  have hfile : saveFile (c.EnvPath (c.Name t)) ext = c.EnvPath (c.Name t) ++ ext := by
    simp [saveFile, hnoext]
  rw [hfile] at H
  have hlen : 0 < ext.length := by
    rcases Nat.eq_zero_or_pos ext.length with h0 | h0
    · exfalso
      apply hext
      cases ext with
      | mk l =>
        have hl : l = [] := List.length_eq_zero.mp h0
        subst hl
        rfl
    · exact h0
  have hne1 : c.EnvPath (c.Name t) ≠ c.EnvPath (c.Name t) ++ ext := by
    intro h
    have hl := congrArg String.length h
    rw [String.length_append] at hl
    omega
  have hne2 : c.EnvPath (c.Name t) ≠ c.EnvPath (c.Name t) ++ ext ++ ".bak" := by
    intro h
    have hl := congrArg String.length h
    rw [String.length_append, String.length_append] at hl
    omega
  refine ⟨by rw [H]; simp, ?_⟩
  rw [H, if_neg hne1, Rename_files_other host fs _ _ _ hne1 hne2]

/-- C6 on the code.  In the concrete instance the name `prod` resolves to the extensionless
path `env/prod`, for which the resolver returns the codec with extension `.json`.
`SaveEnvironment` succeeds and the encoded checkpoint is at `env/prod.json`, while
`GetEnvironment` of the same name reads `env/prod`, where there is no file, and returns the
error of the failed read. -/
theorem extensionless_save_not_found_by_get :
    filepath.Ext (demo.EnvPath "prod") = ""
    ∧ (demo.Detect (demo.EnvPath "prod")).2 = ".json"
    ∧ (SaveEnvironment demo demoHost (some ⟨"prod", 7⟩) (some [1, 2]) emptyFS).completion
        = .returned none
    ∧ (SaveEnvironment demo demoHost (some ⟨"prod", 7⟩) (some [1, 2]) emptyFS).fs.files
        "env/prod.json" = some [7, 112, 114, 111, 100, 0, 1, 2]
    ∧ (SaveEnvironment demo demoHost (some ⟨"prod", 7⟩) (some [1, 2]) emptyFS).fs.files
        "env/prod" = none
    ∧ (GetEnvironment demo demoHost "prod"
        (SaveEnvironment demo demoHost (some ⟨"prod", 7⟩) (some [1, 2]) emptyFS).fs).completion
        = .returned ⟨none, none, none, some (.pathError "open" "env/prod" true)⟩ :=
  ⟨rfl, rfl, rfl, rfl, rfl, rfl⟩

end Theorems

end ProviderEnv
